import Mathlib

/-!
# Verification of `dkarchiver`'s archive-search engine

Shallow embedding of `src/dkarchiver/search_in_archive.py` (and the parts of
`src/dkarchiver/arch_wrappers/zips.py` it uses).  Python byte strings that may
hold archives are modelled by the inductive `Blob`; a `Blob.zipArc` stands for
bytes that parse as a zip container, a `Blob.svnArc` for bytes bearing the 7z
magic signature, a `Blob.raw` for bytes matching neither container signature.
Each blob carries the media-type string that the external `file_types`
collaborator would report for it.  Python dictionaries (insertion-ordered) are
modelled as association lists; Python sets by duplicate-free lists.  Python
exceptions are modelled with `Except Err`.  The recursive descent into nested
archives is driven by a fuel parameter (`Err.outOfFuel` signals exhaustion);
with fuel larger than the nesting depth the embedding follows the source.
-/

namespace DkArchiver

/-- Python exceptions raised by the embedded code paths. -/
inductive Err : Type where
  /-- `ValueError` raised by `search_file_in_archive` when no criteria are given. -/
  | valueError : Err
  /-- the module's custom `UnknownArchiveType` exception. -/
  | unknownArchiveType : Err
  /-- `AttributeError`: attribute access on an object that lacks it. -/
  | attributeError : Err
  /-- `TypeError`: e.g. indexing a `list` with a string key. -/
  | typeError : Err
  /-- artifact of the fuel-based embedding of the recursion; never an outcome
  of the source when the fuel exceeds the archive nesting depth. -/
  | outOfFuel : Err
deriving DecidableEq

mutual
/-- A byte string as the engine sees it: either it parses as a zip container,
or it bears the 7z magic number, or neither.  The `mime` field is the
media-type hint the `file_types.get_mime_type` collaborator reports for these
bytes. -/
inductive Blob : Type where
  | raw (mime : String) : Blob
  | zipArc (mime : String) (items : List ZipEntry) : Blob
  | svnArc (mime : String) (items : List SvnEntry) : Blob

/-- One entry of a zip container, with the `zipfile.ZipInfo` metadata the
source reads (`filename`, `file_size`, `date_time`) and the bytes that
`arch_obj.open(item).read()` yields for it. -/
inductive ZipEntry : Type where
  | mk (filename : String) (file_size : Nat) (date_time : Nat) (content : Blob) : ZipEntry

/-- One entry of a 7z container, with the `py7zr` `FileInfo` metadata the
source reads (`filename`, `is_directory`, `uncompressed`, `creationtime`) and
the bytes that `_read_7z_member_bytes` yields for it. -/
inductive SvnEntry : Type where
  | mk (filename : String) (is_directory : Bool) (uncompressed : Nat) (creationtime : Nat)
      (content : Blob) : SvnEntry
end

def ZipEntry.filename : ZipEntry → String
  | .mk f _ _ _ => f

def ZipEntry.file_size : ZipEntry → Nat
  | .mk _ s _ _ => s

def ZipEntry.date_time : ZipEntry → Nat
  | .mk _ _ d _ => d

def ZipEntry.content : ZipEntry → Blob
  | .mk _ _ _ c => c

def SvnEntry.filename : SvnEntry → String
  | .mk f _ _ _ _ => f

def SvnEntry.is_directory : SvnEntry → Bool
  | .mk _ d _ _ _ => d

def SvnEntry.uncompressed : SvnEntry → Nat
  | .mk _ _ u _ _ => u

def SvnEntry.creationtime : SvnEntry → Nat
  | .mk _ _ _ c _ => c

def SvnEntry.content : SvnEntry → Blob
  | .mk _ _ _ _ c => c

/-- The metadata object handed to the matching helpers: a `zipfile.ZipInfo`
for zip members, a `py7zr` `FileInfo` for 7z members.  The two classes expose
different attribute sets (the source itself reads `file_size`/`date_time` on
zip items and `uncompressed`/`creationtime` on 7z items). -/
inductive Item : Type where
  | zipInfo (filename : String) (file_size : Nat) (date_time : Nat) : Item
  | svnInfo (filename : String) (is_directory : Bool) (uncompressed : Nat)
      (creationtime : Nat) : Item

/-- `item.filename`: both metadata classes expose it. -/
def Item.filename : Item → String
  | .zipInfo f _ _ => f
  | .svnInfo f _ _ _ => f

/-- `item.file_size`: a `zipfile.ZipInfo` attribute; `AttributeError` on a
`py7zr` `FileInfo`. -/
def Item.file_size : Item → Except Err Nat
  | .zipInfo _ s _ => .ok s
  | .svnInfo _ _ _ _ => .error .attributeError

/-- `item.date_time`: a `zipfile.ZipInfo` attribute; `AttributeError` on a
`py7zr` `FileInfo`. -/
def Item.date_time : Item → Except Err Nat
  | .zipInfo _ _ d => .ok d
  | .svnInfo _ _ _ _ => .error .attributeError

/-- `item.uncompressed`: a `py7zr` `FileInfo` attribute; `AttributeError` on a
`zipfile.ZipInfo`. -/
def Item.uncompressed : Item → Except Err Nat
  | .zipInfo _ _ _ => .error .attributeError
  | .svnInfo _ _ u _ => .ok u

/-- `item.creationtime`: a `py7zr` `FileInfo` attribute; `AttributeError` on a
`zipfile.ZipInfo`. -/
def Item.creationtime : Item → Except Err Nat
  | .zipInfo _ _ _ => .error .attributeError
  | .svnInfo _ _ _ c => .ok c

/-- Python `current.endswith(suffix)` on strings. -/
def pyEndsWith (current suffix : String) : Bool :=
  suffix.data.isSuffixOf current.data

/-- Python `s.lower()` (ASCII case folding suffices for the embedding). -/
def pyLower (s : String) : String :=
  String.mk (s.data.map Char.toLower)

/-- The `file_info` dict built on a match: member bytes, name, size,
modified time. -/
structure FileInfo : Type where
  bytes : Blob
  name : String
  size : Nat
  modified_time : Nat

/-- A value stored in the `results` dict: either the list of `file_info`
dicts under a matched member filename (name matching), or the
`{'files': ..., 'callable_result': ...}` dict under a callback name. -/
inductive RVal : Type where
  | files (l : List FileInfo) : RVal
  | cbRec (files : List FileInfo) (callable_result : Nat) : RVal

/-- The `results` Python dict: insertion-ordered association list. -/
abbrev Results : Type := List (String × RVal)

/-- The `found_set` Python set: duplicate-free list (only membership and
cardinality are consulted by the source). -/
abbrev FoundSet : Type := List String

/-- Python `key in results`. -/
def dictHasKey (d : Results) (k : String) : Bool :=
  d.any (fun p => p.1 == k)

/-- Python `results[key]` as a total lookup. -/
def dictGet (d : Results) (k : String) : Option RVal :=
  (d.find? (fun p => p.1 == k)).map Prod.snd

/-- Python `results[key] = v`: update in place when the key exists, else
append (dicts preserve insertion order). -/
def dictSet (d : Results) (k : String) (v : RVal) : Results :=
  if dictHasKey d k then d.map (fun p => if p.1 == k then (k, v) else p)
  else d ++ [(k, v)]

/-- The keys of the `results` dict, in insertion order. -/
def dictKeys (d : Results) : List String :=
  d.map Prod.fst

/-- Python `found_set.add(x)`. -/
def setAdd (s : FoundSet) (x : String) : FoundSet :=
  if s.contains x then s else s ++ [x]

/-- A content predicate ("callback function"): the display name the source
derives via `_get_callback_name` and the function itself.  A Python-falsy
return is modelled as `none`, a truthy return value as `some v`. -/
structure Callback : Type where
  name : String
  fn : Blob → Option Nat

/-- `_get_callback_name`.  Modelled: the source derives the display name
reflectively from `__name__` (qualified by `__self__`'s class); the model
carries that name in the `Callback` record. -/
def _get_callback_name (cb : Callback) : String :=
  cb.name

/-- `zips.is_zip_zipfile`: the source parses the bytes with `zipfile.ZipFile`
and reports whether that succeeds; in the model exactly the `Blob.zipArc`
blobs parse as zip. -/
def is_zip_zipfile : Blob → Bool
  | .zipArc _ _ => true
  | _ => false

/-- Modelled from the spec: the `sevenzs` module is not under `src/`.  The
Format Detector classifies "by leading-byte signatures"; `Blob.svnArc` blobs
are the byte strings bearing the 7z magic signature. -/
def is_7z_magic_number : Blob → Bool
  | .svnArc _ _ => true
  | _ => false

/-- Modelled from the spec: `helper.file_types` is not under `src/`.  The
spec calls it "a media-type hint source (optional, advisory only)"; the model
carries the reported media type on each blob. -/
def get_mime_type : Blob → String
  | .raw m => m
  | .zipArc m _ => m
  | .svnArc m _ => m

/-- The module-level `SUPPORTED_ARCHIVE_MIMES` list. -/
def SUPPORTED_ARCHIVE_MIMES : List String :=
  [ "application/x-7z-compressed"
  , "application/zip"
  , "application/x-dosexec"
  , "application/octet-stream"
  , "application/vnd.microsoft.portable-executable" ]

/-- `_match_file_name(target, current, case_sensitive)`. -/
def _match_file_name (target current : String) (case_sensitive : Bool) : Bool :=
  if case_sensitive then pyEndsWith current target
  else pyEndsWith (pyLower current) (pyLower target)

/-- `_get_archive_type(file_object)`: `None` when the media type is not in
`SUPPORTED_ARCHIVE_MIMES`; otherwise `'zip'`/`'7z'` per signature test, and
`UnknownArchiveType` when the media type looked supported but neither
signature matches. -/
def _get_archive_type (file_object : Blob) : Except Err (Option String) :=
  if !(SUPPORTED_ARCHIVE_MIMES.contains (get_mime_type file_object)) then .ok none
  else if is_zip_zipfile file_object then .ok (some "zip")
  else if is_7z_magic_number file_object then .ok (some "7z")
  else .error .unknownArchiveType

/-- The `file_info` dict built inside `_handle_callback_matching`, which
branches on the archive type: zip uses `file_size`/`date_time`, 7z uses
`uncompressed`/`creationtime`, anything else raises `UnknownArchiveType`. -/
def callback_file_info (item : Item) (archive_type : String) (archived_file_bytes : Blob) :
    Except Err FileInfo :=
  if archive_type == "zip" then
    match Item.file_size item, Item.date_time item with
    | .ok sz, .ok dt => .ok ⟨archived_file_bytes, Item.filename item, sz, dt⟩
    | .error e, _ => .error e
    | _, .error e => .error e
  else if archive_type == "7z" then
    match Item.uncompressed item, Item.creationtime item with
    | .ok sz, .ok ct => .ok ⟨archived_file_bytes, Item.filename item, sz, ct⟩
    | .error e, _ => .error e
    | _, .error e => .error e
  else .error .unknownArchiveType

/-- `_handle_callback_matching`: try the callbacks in order; on the first
truthy result, record the `file_info` and the returned value under the
callback's display name and report `True`; with no truthy callback report
`False`. -/
def _handle_callback_matching (item : Item) (archive_type : String)
    (archived_file_bytes : Blob) (callback_functions : List Callback)
    (results : Results) (found_set : FoundSet) (return_first_only : Bool) :
    Except Err (Bool × Results × FoundSet) :=
  match callback_functions with
  | [] => .ok (false, results, found_set)
  | callback :: rest =>
    match callback.fn archived_file_bytes with
    | none =>
      _handle_callback_matching item archive_type archived_file_bytes rest results
        found_set return_first_only
    | some callback_result =>
      let key := _get_callback_name callback
      let results1 :=
        if dictHasKey results key then results else dictSet results key (.cbRec [] 0)
      match callback_file_info item archive_type archived_file_bytes with
      | .error e => .error e
      | .ok file_info =>
        match dictGet results1 key with
        | some (.cbRec files _) =>
          .ok (true, dictSet results1 key (.cbRec (files ++ [file_info]) callback_result),
               if return_first_only then setAdd found_set (Item.filename item) else found_set)
        | _ => .error .typeError

/-- `_handle_name_matching`: when the member's filename ends with any of the
requested names, append a `file_info` under the key `item.filename` (the
member's own full name) and, with `return_first_only`, add `item.filename` to
the found set.  The `file_info` reads `item.file_size` and `item.date_time`,
attributes only `zipfile.ZipInfo` metadata objects expose. -/
def _handle_name_matching (item : Item) (archived_file_bytes : Blob)
    (file_names : List String) (case_sensitive : Bool)
    (results : Results) (found_set : FoundSet) (return_first_only : Bool) :
    Except Err (Results × FoundSet) :=
  if file_names.any (fun file_name => _match_file_name file_name (Item.filename item) case_sensitive) then
    let results1 :=
      if dictHasKey results (Item.filename item) then results
      else dictSet results (Item.filename item) (.files [])
    match Item.file_size item, Item.date_time item with
    | .ok sz, .ok dt =>
      let file_info : FileInfo := ⟨archived_file_bytes, Item.filename item, sz, dt⟩
      match dictGet results1 (Item.filename item) with
      | some (.files l) =>
        .ok (dictSet results1 (Item.filename item) (.files (l ++ [file_info])),
             if return_first_only then setAdd found_set (Item.filename item) else found_set)
      | _ => .error .attributeError
    | .error e, _ => .error e
    | _, .error e => .error e
  else .ok (results, found_set)

/-- Python truthiness of an optional list argument (`if callback_functions:`,
`if file_names:`): `None` and the empty list are falsy. -/
def truthyOptList {α : Type} : Option (List α) → Bool
  | none => false
  | some l => !l.isEmpty

/-- The early-exit test at the end of each loop iteration of
`_search_in_archive`:
`file_names is not None and len(found_set) == len(file_names)`. -/
def break_condition (file_names : Option (List String)) (found_set : FoundSet) : Bool :=
  match file_names with
  | none => false
  | some ns => found_set.length == ns.length

/-- The body of `_search_in_archive`'s loop for one non-directory zip member:
callback matching, then (unmatched) possible recursion into the member's
bytes, then name matching.  `recurse` is the nested `_search_archive_content`
call; extraction (`_handle_file_extraction`) touches only the filesystem and
has no effect on the returned results. -/
def process_zip_entry (recurse : Blob → Results → FoundSet → Except Err (Results × FoundSet))
    (file_names : Option (List String)) (case_sensitive return_first_only recursive : Bool)
    (callback_functions : Option (List Callback)) (e : ZipEntry)
    (results : Results) (found_set : FoundSet) : Except Err (Results × FoundSet) :=
  let archived_file_bytes := e.content
  let item : Item := .zipInfo e.filename e.file_size e.date_time
  let cbStep : Except Err (Bool × Results × FoundSet) :=
    if truthyOptList callback_functions then
      _handle_callback_matching item "zip" archived_file_bytes
        (callback_functions.getD []) results found_set return_first_only
    else .ok (false, results, found_set)
  match cbStep with
  | .error e => .error e
  | .ok (true, results, found_set) => .ok (results, found_set)
  | .ok (false, results, found_set) =>
    let recStep : Except Err (Results × FoundSet) :=
      if recursive && (is_zip_zipfile archived_file_bytes || is_7z_magic_number archived_file_bytes) then
        recurse archived_file_bytes results found_set
      else .ok (results, found_set)
    match recStep with
    | .error e => .error e
    | .ok (results, found_set) =>
      if truthyOptList file_names then
        _handle_name_matching item archived_file_bytes (file_names.getD []) case_sensitive
          results found_set return_first_only
      else .ok (results, found_set)

/-- Same loop body for one non-directory 7z member. -/
def process_svn_entry (recurse : Blob → Results → FoundSet → Except Err (Results × FoundSet))
    (file_names : Option (List String)) (case_sensitive return_first_only recursive : Bool)
    (callback_functions : Option (List Callback)) (e : SvnEntry)
    (results : Results) (found_set : FoundSet) : Except Err (Results × FoundSet) :=
  let archived_file_bytes := e.content
  let item : Item := .svnInfo e.filename e.is_directory e.uncompressed e.creationtime
  let cbStep : Except Err (Bool × Results × FoundSet) :=
    if truthyOptList callback_functions then
      _handle_callback_matching item "7z" archived_file_bytes
        (callback_functions.getD []) results found_set return_first_only
    else .ok (false, results, found_set)
  match cbStep with
  | .error e => .error e
  | .ok (true, results, found_set) => .ok (results, found_set)
  | .ok (false, results, found_set) =>
    let recStep : Except Err (Results × FoundSet) :=
      if recursive && (is_zip_zipfile archived_file_bytes || is_7z_magic_number archived_file_bytes) then
        recurse archived_file_bytes results found_set
      else .ok (results, found_set)
    match recStep with
    | .error e => .error e
    | .ok (results, found_set) =>
      if truthyOptList file_names then
        _handle_name_matching item archived_file_bytes (file_names.getD []) case_sensitive
          results found_set return_first_only
      else .ok (results, found_set)

/-- `_search_in_archive`'s loop over a zip member list: a member whose
filename ends with `'/'` is skipped with `continue` (no early-exit check);
otherwise the member is processed and the loop `break`s when the early-exit
condition holds. -/
def zip_search_loop (recurse : Blob → Results → FoundSet → Except Err (Results × FoundSet))
    (file_names : Option (List String)) (case_sensitive return_first_only recursive : Bool)
    (callback_functions : Option (List Callback)) :
    List ZipEntry → Results → FoundSet → Except Err (Results × FoundSet)
  | [], results, found_set => .ok (results, found_set)
  | e :: rest, results, found_set =>
    if pyEndsWith e.filename "/" then
      zip_search_loop recurse file_names case_sensitive return_first_only recursive
        callback_functions rest results found_set
    else
      match process_zip_entry recurse file_names case_sensitive return_first_only recursive
          callback_functions e results found_set with
      | .error er => .error er
      | .ok (results', found_set') =>
        if break_condition file_names found_set' then .ok (results', found_set')
        else
          zip_search_loop recurse file_names case_sensitive return_first_only recursive
            callback_functions rest results' found_set'

/-- `_search_in_archive`'s loop over a 7z member list: a member whose
`is_directory` flag is set is skipped with `continue`. -/
def svn_search_loop (recurse : Blob → Results → FoundSet → Except Err (Results × FoundSet))
    (file_names : Option (List String)) (case_sensitive return_first_only recursive : Bool)
    (callback_functions : Option (List Callback)) :
    List SvnEntry → Results → FoundSet → Except Err (Results × FoundSet)
  | [], results, found_set => .ok (results, found_set)
  | e :: rest, results, found_set =>
    if e.is_directory then
      svn_search_loop recurse file_names case_sensitive return_first_only recursive
        callback_functions rest results found_set
    else
      match process_svn_entry recurse file_names case_sensitive return_first_only recursive
          callback_functions e results found_set with
      | .error er => .error er
      | .ok (results', found_set') =>
        if break_condition file_names found_set' then .ok (results', found_set')
        else
          svn_search_loop recurse file_names case_sensitive return_first_only recursive
            callback_functions rest results' found_set'

/-- `_search_archive_content`: classify the blob, open the matching container
(for both the path and the in-memory case the source opens the same reader)
and run `_search_in_archive` over its members; a `None` archive type falls
through every branch and returns with the state untouched.  The `fuel`
parameter bounds the nesting depth of the embedding's recursion. -/
def _search_archive_content :
    Nat → Blob → Option (List String) → Bool → Bool → Bool → Option (List Callback) →
    Results → FoundSet → Except Err (Results × FoundSet)
  | 0, _, _, _, _, _, _, _, _ => .error .outOfFuel
  | fuel + 1, file_object, file_names, case_sensitive, return_first_only, recursive,
      callback_functions, results, found_set =>
    match _get_archive_type file_object with
    | .error e => .error e
    | .ok none => .ok (results, found_set)
    | .ok (some archive_type) =>
      if archive_type == "zip" then
        match file_object with
        | .zipArc _ items =>
          zip_search_loop
            (fun b r f => _search_archive_content fuel b file_names case_sensitive
              return_first_only recursive callback_functions r f)
            file_names case_sensitive return_first_only recursive callback_functions
            items results found_set
        | _ => .ok (results, found_set)
      else if archive_type == "7z" then
        match file_object with
        | .svnArc _ items =>
          svn_search_loop
            (fun b r f => _search_archive_content fuel b file_names case_sensitive
              return_first_only recursive callback_functions r f)
            file_names case_sensitive return_first_only recursive callback_functions
            items results found_set
        | _ => .ok (results, found_set)
      else .ok (results, found_set)

/-- Python truthiness of an `RVal` (`if value:` in the final dict
comprehension): an empty list is falsy; the callback record is a dict that
always holds its two keys, hence always truthy. -/
def rval_truthy : RVal → Bool
  | .files l => !l.isEmpty
  | .cbRec _ _ => true

/-- `search_file_in_archive`: raise `ValueError` when both criteria arguments
are `None`; run the traversal from empty `results`/`found_set`; unless
`return_empty_list_per_file_name` is set, drop the keys with falsy values. -/
def search_file_in_archive (fuel : Nat) (file_object : Blob)
    (file_names_to_search : Option (List String))
    (case_sensitive return_first_only return_empty_list_per_file_name recursive : Bool)
    (callback_functions : Option (List Callback)) : Except Err Results :=
  if file_names_to_search.isNone && callback_functions.isNone then .error .valueError
  else
    match _search_archive_content fuel file_object file_names_to_search case_sensitive
        return_first_only recursive callback_functions [] [] with
    | .error e => .error e
    | .ok (results, _) =>
      .ok (if return_empty_list_per_file_name then results
           else results.filter (fun p => rval_truthy p.2))

/-! ## Association-list (Python dict) lemmas -/

theorem dictGet_none_iff (d : Results) (k : String) :
    dictGet d k = none ↔ dictHasKey d k = false := by
  simp [dictGet, dictHasKey, List.find?_eq_none, List.any_eq_false]

theorem dictSet_of_not_hasKey (d : Results) (k : String) (v : RVal)
    (h : dictHasKey d k = false) : dictSet d k v = d ++ [(k, v)] := by
  simp [dictSet, h]

theorem dictGet_append_single_self (d : Results) (k : String) (v : RVal)
    (h : dictHasKey d k = false) : dictGet (d ++ [(k, v)]) k = some v := by
  have hall : ∀ p ∈ d, ¬((fun p : String × RVal => p.1 == k) p = true) := by
    simpa [dictHasKey, List.any_eq_false] using h
  simp [dictGet, List.find?_append, List.find?_eq_none.mpr hall]

theorem dictHasKey_append_single_self (d : Results) (k : String) (v : RVal) :
    dictHasKey (d ++ [(k, v)]) k = true := by
  simp [dictHasKey]

theorem dictSet_append_overwrite (d : Results) (k : String) (v w : RVal)
    (h : dictHasKey d k = false) : dictSet (d ++ [(k, v)]) k w = d ++ [(k, w)] := by
  have hall : ∀ p ∈ d, (p.1 == k) = false := by
    simpa [dictHasKey, List.any_eq_false] using h
  unfold dictSet
  rw [if_pos (dictHasKey_append_single_self d k v)]
  simp only [List.map_append]
  congr 1
  · calc d.map (fun p => if p.1 == k then (k, w) else p)
        = d.map id := List.map_congr_left (fun p hp => by simp [hall p hp])
      _ = d := List.map_id d
  · simp

theorem dictHasKey_of_get_some (d : Results) (k : String) (v : RVal)
    (h : dictGet d k = some v) : dictHasKey d k = true := by
  by_contra hfalse
  have : dictHasKey d k = false := by
    cases hk : dictHasKey d k
    · rfl
    · exact absurd hk hfalse
  rw [(dictGet_none_iff d k).mpr this] at h
  exact Option.noConfusion h

/-! ## Step equations for the fuel-driven recursion -/

theorem sac_zero (b : Blob) (fns : Option (List String)) (cs fo rec' : Bool)
    (cbs : Option (List Callback)) (r : Results) (f : FoundSet) :
    _search_archive_content 0 b fns cs fo rec' cbs r f = .error .outOfFuel := rfl

theorem sac_succ (fuel : Nat) (b : Blob) (fns : Option (List String)) (cs fo rec' : Bool)
    (cbs : Option (List Callback)) (r : Results) (f : FoundSet) :
    _search_archive_content (fuel + 1) b fns cs fo rec' cbs r f =
      match _get_archive_type b with
      | .error e => .error e
      | .ok none => .ok (r, f)
      | .ok (some archive_type) =>
        if archive_type == "zip" then
          match b with
          | .zipArc _ items =>
            zip_search_loop
              (fun b' r' f' => _search_archive_content fuel b' fns cs fo rec' cbs r' f')
              fns cs fo rec' cbs items r f
          | _ => .ok (r, f)
        else if archive_type == "7z" then
          match b with
          | .svnArc _ items =>
            svn_search_loop
              (fun b' r' f' => _search_archive_content fuel b' fns cs fo rec' cbs r' f')
              fns cs fo rec' cbs items r f
          | _ => .ok (r, f)
        else .ok (r, f) := rfl

/-! ## The found set never grows while `return_first_only` is false -/

theorem hnm_found_preserved (item : Item) (b : Blob) (names : List String) (cs : Bool)
    (r : Results) (f : FoundSet) (r' : Results) (f' : FoundSet)
    (h : _handle_name_matching item b names cs r f false = .ok (r', f')) : f' = f := by
  cases item with
  | svnInfo fn dir u c =>
    unfold _handle_name_matching at h
    simp only [Item.file_size, Item.date_time, Item.filename] at h
    split at h
    · simp at h
    · simp only [Except.ok.injEq, Prod.mk.injEq] at h
      exact h.2.symm
  | zipInfo fn sz dt =>
    unfold _handle_name_matching at h
    simp only [Item.file_size, Item.date_time, Item.filename] at h
    split at h
    · split at h
      · simp only [Bool.false_eq_true, if_false, Except.ok.injEq, Prod.mk.injEq] at h
        exact h.2.symm
      · simp at h
    · simp only [Except.ok.injEq, Prod.mk.injEq] at h
      exact h.2.symm

theorem hcm_found_preserved (item : Item) (aty : String) (b : Blob) :
    ∀ (cbs : List Callback) (r : Results) (f : FoundSet) (m : Bool)
      (r' : Results) (f' : FoundSet),
      _handle_callback_matching item aty b cbs r f false = .ok (m, r', f') → f' = f := by
  intro cbs
  induction cbs with
  | nil =>
    intro r f m r' f' h
    simp only [_handle_callback_matching, Except.ok.injEq, Prod.mk.injEq] at h
    exact h.2.2.symm
  | cons cb rest ih =>
    intro r f m r' f' h
    unfold _handle_callback_matching at h
    split at h
    · exact ih r f m r' f' h
    · simp only [] at h
      split at h
      · simp at h
      · split at h
        · simp only [Bool.false_eq_true, if_false, Except.ok.injEq, Prod.mk.injEq] at h
          exact h.2.2.symm
        · simp at h

theorem pze_found_preserved
    (recurse : Blob → Results → FoundSet → Except Err (Results × FoundSet))
    (hrec : ∀ b r f r' f', recurse b r f = .ok (r', f') → f' = f)
    (fns : Option (List String)) (cs rec' : Bool) (cbs : Option (List Callback))
    (e : ZipEntry) (r : Results) (f : FoundSet) (r' : Results) (f' : FoundSet)
    (h : process_zip_entry recurse fns cs false rec' cbs e r f = .ok (r', f')) : f' = f := by
  unfold process_zip_entry at h
  simp only [] at h
  split at h
  · simp at h
  case h_2 r₁ f₁ heq =>
    simp only [Except.ok.injEq, Prod.mk.injEq] at h
    have hf₁ : f₁ = f := by
      split at heq
      · exact hcm_found_preserved _ _ _ _ _ _ _ _ _ heq
      · simp only [Except.ok.injEq, Prod.mk.injEq] at heq
        exact heq.2.2.symm
    exact h.2.symm.trans hf₁
  case h_3 r₁ f₁ heq =>
    have hf₁ : f₁ = f := by
      split at heq
      · exact hcm_found_preserved _ _ _ _ _ _ _ _ _ heq
      · simp only [Except.ok.injEq, Prod.mk.injEq] at heq
        exact heq.2.2.symm
    split at h
    · simp at h
    case h_2 r₂ f₂ heq2 =>
      have hf₂ : f₂ = f₁ := by
        split at heq2
        · exact hrec _ _ _ _ _ heq2
        · simp only [Except.ok.injEq, Prod.mk.injEq] at heq2
          exact heq2.2.symm
      split at h
      · exact (hnm_found_preserved _ _ _ _ _ _ _ _ h).trans (hf₂.trans hf₁)
      · simp only [Except.ok.injEq, Prod.mk.injEq] at h
        exact h.2.symm.trans (hf₂.trans hf₁)

theorem pse_found_preserved
    (recurse : Blob → Results → FoundSet → Except Err (Results × FoundSet))
    (hrec : ∀ b r f r' f', recurse b r f = .ok (r', f') → f' = f)
    (fns : Option (List String)) (cs rec' : Bool) (cbs : Option (List Callback))
    (e : SvnEntry) (r : Results) (f : FoundSet) (r' : Results) (f' : FoundSet)
    (h : process_svn_entry recurse fns cs false rec' cbs e r f = .ok (r', f')) : f' = f := by
  unfold process_svn_entry at h
  simp only [] at h
  split at h
  · simp at h
  case h_2 r₁ f₁ heq =>
    simp only [Except.ok.injEq, Prod.mk.injEq] at h
    have hf₁ : f₁ = f := by
      split at heq
      · exact hcm_found_preserved _ _ _ _ _ _ _ _ _ heq
      · simp only [Except.ok.injEq, Prod.mk.injEq] at heq
        exact heq.2.2.symm
    exact h.2.symm.trans hf₁
  case h_3 r₁ f₁ heq =>
    have hf₁ : f₁ = f := by
      split at heq
      · exact hcm_found_preserved _ _ _ _ _ _ _ _ _ heq
      · simp only [Except.ok.injEq, Prod.mk.injEq] at heq
        exact heq.2.2.symm
    split at h
    · simp at h
    case h_2 r₂ f₂ heq2 =>
      have hf₂ : f₂ = f₁ := by
        split at heq2
        · exact hrec _ _ _ _ _ heq2
        · simp only [Except.ok.injEq, Prod.mk.injEq] at heq2
          exact heq2.2.symm
      split at h
      · exact (hnm_found_preserved _ _ _ _ _ _ _ _ h).trans (hf₂.trans hf₁)
      · simp only [Except.ok.injEq, Prod.mk.injEq] at h
        exact h.2.symm.trans (hf₂.trans hf₁)

theorem zip_loop_found_preserved
    (recurse : Blob → Results → FoundSet → Except Err (Results × FoundSet))
    (hrec : ∀ b r f r' f', recurse b r f = .ok (r', f') → f' = f)
    (fns : Option (List String)) (cs rec' : Bool) (cbs : Option (List Callback)) :
    ∀ (items : List ZipEntry) (r : Results) (f : FoundSet) (r' : Results) (f' : FoundSet),
      zip_search_loop recurse fns cs false rec' cbs items r f = .ok (r', f') → f' = f := by
  intro items
  induction items with
  | nil =>
    intro r f r' f' h
    simp only [zip_search_loop, Except.ok.injEq, Prod.mk.injEq] at h
    exact h.2.symm
  | cons e rest ih =>
    intro r f r' f' h
    unfold zip_search_loop at h
    split at h
    · exact ih r f r' f' h
    · split at h
      · simp at h
      case h_2 r₁ f₁ heq =>
        have hf₁ : f₁ = f := pze_found_preserved recurse hrec fns cs rec' cbs e r f r₁ f₁ heq
        split at h
        · simp only [Except.ok.injEq, Prod.mk.injEq] at h
          exact h.2.symm.trans hf₁
        · exact (ih r₁ f₁ r' f' h).trans hf₁

theorem svn_loop_found_preserved
    (recurse : Blob → Results → FoundSet → Except Err (Results × FoundSet))
    (hrec : ∀ b r f r' f', recurse b r f = .ok (r', f') → f' = f)
    (fns : Option (List String)) (cs rec' : Bool) (cbs : Option (List Callback)) :
    ∀ (items : List SvnEntry) (r : Results) (f : FoundSet) (r' : Results) (f' : FoundSet),
      svn_search_loop recurse fns cs false rec' cbs items r f = .ok (r', f') → f' = f := by
  intro items
  induction items with
  | nil =>
    intro r f r' f' h
    simp only [svn_search_loop, Except.ok.injEq, Prod.mk.injEq] at h
    exact h.2.symm
  | cons e rest ih =>
    intro r f r' f' h
    unfold svn_search_loop at h
    split at h
    · exact ih r f r' f' h
    · split at h
      · simp at h
      case h_2 r₁ f₁ heq =>
        have hf₁ : f₁ = f := pse_found_preserved recurse hrec fns cs rec' cbs e r f r₁ f₁ heq
        split at h
        · simp only [Except.ok.injEq, Prod.mk.injEq] at h
          exact h.2.symm.trans hf₁
        · exact (ih r₁ f₁ r' f' h).trans hf₁

theorem sac_found_preserved :
    ∀ (fuel : Nat) (b : Blob) (fns : Option (List String)) (cs rec' : Bool)
      (cbs : Option (List Callback)) (r : Results) (f : FoundSet)
      (r' : Results) (f' : FoundSet),
      _search_archive_content fuel b fns cs false rec' cbs r f = .ok (r', f') → f' = f := by
  intro fuel
  induction fuel with
  | zero =>
    intro b fns cs rec' cbs r f r' f' h
    rw [sac_zero] at h
    exact absurd h (by simp)
  | succ fuel ih =>
    intro b fns cs rec' cbs r f r' f' h
    rw [sac_succ] at h
    split at h
    · simp at h
    · simp only [Except.ok.injEq, Prod.mk.injEq] at h
      exact h.2.symm
    · split at h
      · split at h
        · exact zip_loop_found_preserved _
            (fun b' r1 f1 r2 f2 hh => ih b' fns cs rec' cbs r1 f1 r2 f2 hh)
            fns cs rec' cbs _ r f r' f' h
        · simp only [Except.ok.injEq, Prod.mk.injEq] at h
          exact h.2.symm
      · split at h
        · split at h
          · exact svn_loop_found_preserved _
              (fun b' r1 f1 r2 f2 hh => ih b' fns cs rec' cbs r1 f1 r2 f2 hh)
              fns cs rec' cbs _ r f r' f' h
          · simp only [Except.ok.injEq, Prod.mk.injEq] at h
            exact h.2.symm
        · simp only [Except.ok.injEq, Prod.mk.injEq] at h
          exact h.2.symm

/-! ## No code path of the traversal raises `ValueError` -/

theorem hnm_no_valueError (item : Item) (b : Blob) (names : List String) (cs : Bool)
    (r : Results) (f : FoundSet) (fo : Bool) :
    _handle_name_matching item b names cs r f fo ≠ .error .valueError := by
  intro h
  cases item with
  | svnInfo fn dir u c =>
    unfold _handle_name_matching at h
    simp only [Item.file_size, Item.date_time, Item.filename] at h
    split at h <;> simp at h
  | zipInfo fn sz dt =>
    unfold _handle_name_matching at h
    simp only [Item.file_size, Item.date_time, Item.filename] at h
    split at h
    · split at h <;> simp at h
    · simp at h

theorem cfi_no_valueError (item : Item) (aty : String) (b : Blob) :
    callback_file_info item aty b ≠ .error .valueError := by
  intro h
  cases item <;>
    · unfold callback_file_info at h
      simp only [Item.file_size, Item.date_time, Item.uncompressed, Item.creationtime,
        Item.filename] at h
      split at h
      · simp at h
      · split at h <;> simp at h

theorem hcm_no_valueError (item : Item) (aty : String) (b : Blob) :
    ∀ (cbs : List Callback) (r : Results) (f : FoundSet) (fo : Bool),
      _handle_callback_matching item aty b cbs r f fo ≠ .error .valueError := by
  intro cbs
  induction cbs with
  | nil =>
    intro r f fo h
    simp [_handle_callback_matching] at h
  | cons cb rest ih =>
    intro r f fo h
    unfold _handle_callback_matching at h
    split at h
    · exact ih r f fo h
    · simp only [] at h
      split at h
      case h_1 er heq =>
        cases h
        exact cfi_no_valueError item aty b heq
      · split at h <;> simp at h

theorem pze_no_valueError
    (recurse : Blob → Results → FoundSet → Except Err (Results × FoundSet))
    (hrec : ∀ b r f, recurse b r f ≠ .error .valueError)
    (fns : Option (List String)) (cs fo rec' : Bool) (cbs : Option (List Callback))
    (e : ZipEntry) (r : Results) (f : FoundSet) :
    process_zip_entry recurse fns cs fo rec' cbs e r f ≠ .error .valueError := by
  intro h
  unfold process_zip_entry at h
  simp only [] at h
  split at h
  case h_1 er heq =>
    cases h
    split at heq
    · exact hcm_no_valueError _ _ _ _ _ _ _ heq
    · simp at heq
  · simp at h
  case h_3 r₁ f₁ heq =>
    split at h
    case h_1 er heq2 =>
      cases h
      split at heq2
      · exact hrec _ _ _ heq2
      · simp at heq2
    case h_2 r₂ f₂ heq2 =>
      split at h
      · exact hnm_no_valueError _ _ _ _ _ _ _ h
      · simp at h

theorem pse_no_valueError
    (recurse : Blob → Results → FoundSet → Except Err (Results × FoundSet))
    (hrec : ∀ b r f, recurse b r f ≠ .error .valueError)
    (fns : Option (List String)) (cs fo rec' : Bool) (cbs : Option (List Callback))
    (e : SvnEntry) (r : Results) (f : FoundSet) :
    process_svn_entry recurse fns cs fo rec' cbs e r f ≠ .error .valueError := by
  intro h
  unfold process_svn_entry at h
  simp only [] at h
  split at h
  case h_1 er heq =>
    cases h
    split at heq
    · exact hcm_no_valueError _ _ _ _ _ _ _ heq
    · simp at heq
  · simp at h
  case h_3 r₁ f₁ heq =>
    split at h
    case h_1 er heq2 =>
      cases h
      split at heq2
      · exact hrec _ _ _ heq2
      · simp at heq2
    case h_2 r₂ f₂ heq2 =>
      split at h
      · exact hnm_no_valueError _ _ _ _ _ _ _ h
      · simp at h

theorem zip_loop_no_valueError
    (recurse : Blob → Results → FoundSet → Except Err (Results × FoundSet))
    (hrec : ∀ b r f, recurse b r f ≠ .error .valueError)
    (fns : Option (List String)) (cs fo rec' : Bool) (cbs : Option (List Callback)) :
    ∀ (items : List ZipEntry) (r : Results) (f : FoundSet),
      zip_search_loop recurse fns cs fo rec' cbs items r f ≠ .error .valueError := by
  intro items
  induction items with
  | nil =>
    intro r f h
    simp [zip_search_loop] at h
  | cons e rest ih =>
    intro r f h
    unfold zip_search_loop at h
    split at h
    · exact ih r f h
    · split at h
      case h_1 er heq =>
        cases h
        exact pze_no_valueError recurse hrec fns cs fo rec' cbs e r f heq
      case h_2 r₁ f₁ heq =>
        split at h
        · simp at h
        · exact ih r₁ f₁ h

theorem svn_loop_no_valueError
    (recurse : Blob → Results → FoundSet → Except Err (Results × FoundSet))
    (hrec : ∀ b r f, recurse b r f ≠ .error .valueError)
    (fns : Option (List String)) (cs fo rec' : Bool) (cbs : Option (List Callback)) :
    ∀ (items : List SvnEntry) (r : Results) (f : FoundSet),
      svn_search_loop recurse fns cs fo rec' cbs items r f ≠ .error .valueError := by
  intro items
  induction items with
  | nil =>
    intro r f h
    simp [svn_search_loop] at h
  | cons e rest ih =>
    intro r f h
    unfold svn_search_loop at h
    split at h
    · exact ih r f h
    · split at h
      case h_1 er heq =>
        cases h
        exact pse_no_valueError recurse hrec fns cs fo rec' cbs e r f heq
      case h_2 r₁ f₁ heq =>
        split at h
        · simp at h
        · exact ih r₁ f₁ h

theorem sac_no_valueError :
    ∀ (fuel : Nat) (b : Blob) (fns : Option (List String)) (cs fo rec' : Bool)
      (cbs : Option (List Callback)) (r : Results) (f : FoundSet),
      _search_archive_content fuel b fns cs fo rec' cbs r f ≠ .error .valueError := by
  intro fuel
  induction fuel with
  | zero =>
    intro b fns cs fo rec' cbs r f h
    rw [sac_zero] at h
    simp at h
  | succ fuel ih =>
    intro b fns cs fo rec' cbs r f h
    rw [sac_succ] at h
    split at h
    case h_1 er heq =>
      cases h
      unfold _get_archive_type at heq
      split at heq
      · simp at heq
      · split at heq
        · simp at heq
        · split at heq <;> simp at heq
    · simp at h
    · split at h
      · split at h
        · exact zip_loop_no_valueError _
            (fun b' r1 f1 => ih b' fns cs fo rec' cbs r1 f1) fns cs fo rec' cbs _ r f h
        · simp at h
      · split at h
        · split at h
          · exact svn_loop_no_valueError _
              (fun b' r1 f1 => ih b' fns cs fo rec' cbs r1 f1) fns cs fo rec' cbs _ r f h
          · simp at h
        · simp at h


/-! ## Lemmas about `_handle_callback_matching`'s loop -/

theorem hcm_skip_falsy (item : Item) (aty : String) (b : Blob)
    (pre rest : List Callback) (hpre : ∀ cb ∈ pre, cb.fn b = none) :
    ∀ (r : Results) (f : FoundSet) (fo : Bool),
      _handle_callback_matching item aty b (pre ++ rest) r f fo =
        _handle_callback_matching item aty b rest r f fo := by
  induction pre with
  | nil => intro r f fo; rfl
  | cons cb pre ih =>
    intro r f fo
    have h1 : cb.fn b = none := hpre cb (List.mem_cons_self cb pre)
    have h2 : ∀ c ∈ pre, c.fn b = none := fun c hc => hpre c (List.mem_cons_of_mem cb hc)
    have step : _handle_callback_matching item aty b (cb :: (pre ++ rest)) r f fo =
        _handle_callback_matching item aty b (pre ++ rest) r f fo := by
      conv_lhs => rw [_handle_callback_matching]
      simp only [h1]
    rw [List.cons_append, step]
    exact ih h2 r f fo

/-! ## Claim theorems -/

/-- C1 counterexample: a top-level source whose bytes match no container
signature (here plain bytes with media type `text/plain`, which is not in
`SUPPORTED_ARCHIVE_MIMES`) makes the search complete normally and return an
empty ResultSet instead of raising `UnknownArchiveType`. -/
theorem C1_counterexample :
    search_file_in_archive 2 (.raw "text/plain") (some ["a.txt"]) true false false false
        none = .ok [] := by rfl

/-- C1 (amended): for a top-level source whose bytes match no container
signature, the search raises `UnknownArchiveType` exactly when the reported
media type is in `SUPPORTED_ARCHIVE_MIMES`; when the media type is not in
that list, `_get_archive_type` returns `None` and the search completes,
returning an empty ResultSet. -/
theorem C1_theorem :
    (∀ (fuel : Nat) (mime : String) (fns : Option (List String)) (cs fo ie rec' : Bool)
       (cbs : Option (List Callback)),
      mime ∈ SUPPORTED_ARCHIVE_MIMES →
      (fns.isNone && cbs.isNone) = false →
      search_file_in_archive (fuel + 1) (.raw mime) fns cs fo ie rec' cbs =
        .error .unknownArchiveType)
  ∧ (∀ (fuel : Nat) (mime : String) (fns : Option (List String)) (cs fo ie rec' : Bool)
       (cbs : Option (List Callback)),
      mime ∉ SUPPORTED_ARCHIVE_MIMES →
      (fns.isNone && cbs.isNone) = false →
      search_file_in_archive (fuel + 1) (.raw mime) fns cs fo ie rec' cbs = .ok []) := by
  constructor
  · intro fuel mime fns cs fo ie rec' cbs h1 h2
    unfold search_file_in_archive
    rw [if_neg (by simp [h2])]
    rw [sac_succ]
    simp [_get_archive_type, get_mime_type, is_zip_zipfile, is_7z_magic_number, h1]
  · intro fuel mime fns cs fo ie rec' cbs h1 h2
    unfold search_file_in_archive
    rw [if_neg (by simp [h2])]
    rw [sac_succ]
    simp [_get_archive_type, get_mime_type, h1]

/-- C1 witness: instantiating the amended claim. -/
theorem C1_witness :
    search_file_in_archive 1 (.raw "application/zip") (some ["a.txt"]) true false false
        false none = .error .unknownArchiveType
  ∧ search_file_in_archive 1 (.raw "text/plain") (some ["a.txt"]) true false false
        false none = .ok [] :=
  ⟨C1_theorem.1 0 "application/zip" (some ["a.txt"]) true false false false none
      (by decide) (by decide),
   C1_theorem.2 0 "text/plain" (some ["a.txt"]) true false false false none
      (by decide) (by decide)⟩

/-- C2 counterexample: the member `a/b/file.txt` matches the requested suffix
`file.txt`, but its MatchRecord is recorded under the key `a/b/file.txt` (the
member's own name); the requested suffix `file.txt` is not a key of the
returned ResultSet. -/
theorem C2_counterexample :
    search_file_in_archive 2
        (.zipArc "application/zip" [.mk "a/b/file.txt" 3 1 (.raw "text/plain")])
        (some ["file.txt"]) true false false false none =
      .ok [("a/b/file.txt", .files [⟨.raw "text/plain", "a/b/file.txt", 3, 1⟩])]
  ∧ dictHasKey [("a/b/file.txt", RVal.files [⟨.raw "text/plain", "a/b/file.txt", 3, 1⟩])]
      "file.txt" = false
  ∧ dictKeys [("a/b/file.txt", RVal.files [⟨.raw "text/plain", "a/b/file.txt", 3, 1⟩])] =
      ["a/b/file.txt"] :=
  ⟨rfl, rfl, rfl⟩

/-- C2 (amended): on a name match, `_handle_name_matching` appends the
MatchRecord under the member's own full filename as key (not under the
requested suffix): for a zip member with a fresh filename the results dict
gains exactly the entry keyed by `item.filename`. -/
theorem C2_theorem (fn : String) (sz dt : Nat) (b : Blob) (names : List String)
    (cs : Bool) (r : Results) (f : FoundSet) (fo : Bool)
    (hmatch : names.any (fun n => _match_file_name n fn cs) = true)
    (hfresh : dictHasKey r fn = false) :
    _handle_name_matching (.zipInfo fn sz dt) b names cs r f fo =
      .ok (r ++ [(fn, .files [⟨b, fn, sz, dt⟩])], if fo then setAdd f fn else f) := by
  unfold _handle_name_matching
  simp only [Item.filename, Item.file_size, Item.date_time, hmatch, if_true, hfresh,
    Bool.false_eq_true, if_false]
  rw [dictSet_of_not_hasKey r fn _ hfresh]
  rw [dictGet_append_single_self r fn _ hfresh]
  simp only [List.nil_append]
  rw [dictSet_append_overwrite r fn _ _ hfresh]

/-- C2 witness: instantiating the amended claim. -/
theorem C2_witness :
    _handle_name_matching (.zipInfo "a/b/file.txt" 3 1) (.raw "text/plain") ["file.txt"]
        true [] [] false =
      .ok ([("a/b/file.txt", .files [⟨.raw "text/plain", "a/b/file.txt", 3, 1⟩])], []) :=
  C2_theorem "a/b/file.txt" 3 1 (.raw "text/plain") ["file.txt"] true [] [] false
    (by decide) (by decide)

/-- C3: evaluating the search at the failing input.  With
`names = [a.txt, b.txt]` and `return_first_only = true` over members
`1/a.txt`, `2/a.txt`, `b.txt`, the code records two MatchRecords for the
requested name `a.txt` (under the two member filenames) and none for `b.txt`:
the found set counts distinct member filenames, not satisfied suffixes, so
the traversal stops after the second member and never reads `b.txt`. -/
theorem C3_theorem :
    search_file_in_archive 2
        (.zipArc "application/zip"
          [ .mk "1/a.txt" 1 1 (.raw "text/plain"),
            .mk "2/a.txt" 2 2 (.raw "text/plain"),
            .mk "b.txt" 3 3 (.raw "text/plain") ])
        (some ["a.txt", "b.txt"]) true true false false none =
      .ok [("1/a.txt", .files [⟨.raw "text/plain", "1/a.txt", 1, 1⟩]),
           ("2/a.txt", .files [⟨.raw "text/plain", "2/a.txt", 2, 2⟩])] := by rfl

/-- C4 counterexample: with `return_first_only = false` the found set never
grows, so after the single requested name `a.txt` is satisfied by the first
member, the traversal still reads and matches the later member `x/a.txt` —
the claimed early exit does not happen "regardless of the firstOnly flag". -/
theorem C4_counterexample :
    search_file_in_archive 2
        (.zipArc "application/zip"
          [ .mk "a.txt" 1 1 (.raw "text/plain"), .mk "x/a.txt" 2 2 (.raw "text/plain") ])
        (some ["a.txt"]) true false false false none =
      .ok [("a.txt", .files [⟨.raw "text/plain", "a.txt", 1, 1⟩]),
           ("x/a.txt", .files [⟨.raw "text/plain", "x/a.txt", 2, 2⟩])] := by rfl

/-- C4 (amended): the traversal loop stops enumerating right after processing
a non-directory member that makes `len(found_set) == len(file_names)` hold
(the members after it are never visited, whatever they are); and with
`return_first_only = false` the found set is never changed by a completed
traversal, so no early exit can fire then. -/
theorem C4_theorem :
    (∀ (recurse : Blob → Results → FoundSet → Except Err (Results × FoundSet))
       (fns : Option (List String)) (cs fo rec' : Bool) (cbs : Option (List Callback))
       (e : ZipEntry) (rest : List ZipEntry) (r : Results) (f : FoundSet)
       (r' : Results) (f' : FoundSet),
      pyEndsWith e.filename "/" = false →
      process_zip_entry recurse fns cs fo rec' cbs e r f = .ok (r', f') →
      break_condition fns f' = true →
      zip_search_loop recurse fns cs fo rec' cbs (e :: rest) r f = .ok (r', f'))
  ∧ (∀ (fuel : Nat) (b : Blob) (fns : Option (List String)) (cs rec' : Bool)
       (cbs : Option (List Callback)) (r : Results) (f : FoundSet)
       (r' : Results) (f' : FoundSet),
      _search_archive_content fuel b fns cs false rec' cbs r f = .ok (r', f') → f' = f) := by
  constructor
  · intro recurse fns cs fo rec' cbs e rest r f r' f' hdir hproc hbreak
    unfold zip_search_loop
    rw [hdir]
    simp only [Bool.false_eq_true, if_false, hproc, hbreak, if_true]
  · exact fun fuel b fns cs rec' cbs r f r' f' h =>
      sac_found_preserved fuel b fns cs rec' cbs r f r' f' h

/-- C4 witness: instantiating the amended claim. -/
theorem C4_witness :
    zip_search_loop (fun _ r f => .ok (r, f)) (some ["a.txt"]) true true false none
        [.mk "a.txt" 1 1 (.raw "text/plain"), .mk "zzz" 9 9 (.raw "text/plain")] [] [] =
      .ok ([("a.txt", .files [⟨.raw "text/plain", "a.txt", 1, 1⟩])], ["a.txt"]) :=
  C4_theorem.1 (fun _ r f => .ok (r, f)) (some ["a.txt"]) true true false none
    (.mk "a.txt" 1 1 (.raw "text/plain")) [.mk "zzz" 9 9 (.raw "text/plain")] [] []
    [("a.txt", .files [⟨.raw "text/plain", "a.txt", 1, 1⟩])] ["a.txt"]
    (by decide) (by rfl) (by decide)

/-- C5: evaluating the search at the failing input.  A 7z member whose name
matches the requested suffix makes `_handle_name_matching` read
`item.file_size` and `item.date_time`, attributes a `py7zr` member-metadata
object does not have, so the search raises `AttributeError` instead of
recording a MatchRecord. -/
theorem C5_theorem :
    search_file_in_archive 2
        (.svnArc "application/x-7z-compressed"
          [.mk "report.txt" false 5 7 (.raw "text/plain")])
        (some ["report.txt"]) true false false false none =
      .error .attributeError := by rfl

/-- C6 counterexample: with both criteria supplied as empty lists the
configuration check (`is None and is None`) passes, no `ValueError` is
raised, and the search completes normally. -/
theorem C6_counterexample :
    search_file_in_archive 2
        (.zipArc "application/zip" [.mk "m" 1 1 (.raw "text/plain")])
        (some []) true false false false (some []) = .ok [] := by rfl

/-- C6 (amended): the configuration `ValueError` is raised if and only if
both `file_names_to_search` and `callback_functions` are `None`; lists —
empty or not — pass the check, and no other code path raises `ValueError`. -/
theorem C6_theorem (fuel : Nat) (b : Blob) (fns : Option (List String))
    (cs fo ie rec' : Bool) (cbs : Option (List Callback)) :
    search_file_in_archive fuel b fns cs fo ie rec' cbs = .error .valueError ↔
      (fns.isNone && cbs.isNone) = true := by
  unfold search_file_in_archive
  constructor
  · intro h
    by_contra hc
    rw [if_neg hc] at h
    split at h
    case h_1 er heq =>
      cases h
      exact sac_no_valueError fuel b fns cs fo rec' cbs [] [] heq
    · simp at h
  · intro h
    rw [if_pos h]

/-- C7: evaluating the code at the failing input.  With
`return_empty_list_per_file_name = true` and no matching member, the
requested name `a.txt` does not appear as a key mapped to an empty sequence:
the returned ResultSet has no keys at all. -/
theorem C7_theorem :
    search_file_in_archive 2
        (.zipArc "application/zip" [.mk "b.bin" 1 1 (.raw "text/plain")])
        (some ["a.txt"]) true false true false none = .ok [] := by rfl

/-- C8: predicates are tried in configured order on the member's bytes; the
first one returning a truthy value wins, the rest are not consulted (the
result does not depend on them), and the match is recorded only under the
winning predicate's key — appended to that key's `files` list with the
`callable_result` slot overwritten by the returned value.  Stated for a
fresh key (first conjunct) and for a key already holding a callback record
(second conjunct). -/
theorem C8_theorem :
    (∀ (item : Item) (aty : String) (b : Blob) (pre : List Callback) (win : Callback)
       (post : List Callback) (r : Results) (f : FoundSet) (fo : Bool) (v : Nat)
       (fi : FileInfo),
      (∀ cb ∈ pre, cb.fn b = none) →
      win.fn b = some v →
      callback_file_info item aty b = .ok fi →
      dictHasKey r win.name = false →
      _handle_callback_matching item aty b (pre ++ win :: post) r f fo =
        .ok (true, r ++ [(win.name, .cbRec [fi] v)],
             if fo then setAdd f (Item.filename item) else f))
  ∧ (∀ (item : Item) (aty : String) (b : Blob) (pre : List Callback) (win : Callback)
       (post : List Callback) (r : Results) (f : FoundSet) (fo : Bool) (v : Nat)
       (fi : FileInfo) (files₀ : List FileInfo) (v₀ : Nat),
      (∀ cb ∈ pre, cb.fn b = none) →
      win.fn b = some v →
      callback_file_info item aty b = .ok fi →
      dictGet r win.name = some (.cbRec files₀ v₀) →
      _handle_callback_matching item aty b (pre ++ win :: post) r f fo =
        .ok (true, dictSet r win.name (.cbRec (files₀ ++ [fi]) v),
             if fo then setAdd f (Item.filename item) else f)) := by
  constructor
  · intro item aty b pre win post r f fo v fi hpre hwin hfi hfresh
    rw [hcm_skip_falsy item aty b pre (win :: post) hpre r f fo]
    unfold _handle_callback_matching
    rw [hwin]
    simp only [_get_callback_name, hfi, hfresh, Bool.false_eq_true, if_false]
    rw [dictSet_of_not_hasKey r win.name _ hfresh]
    rw [dictGet_append_single_self r win.name _ hfresh]
    simp only [List.nil_append]
    rw [dictSet_append_overwrite r win.name _ _ hfresh]
  · intro item aty b pre win post r f fo v fi files₀ v₀ hpre hwin hfi hsome
    have hkey : dictHasKey r win.name = true := dictHasKey_of_get_some r win.name _ hsome
    rw [hcm_skip_falsy item aty b pre (win :: post) hpre r f fo]
    unfold _handle_callback_matching
    rw [hwin]
    simp only [_get_callback_name, hfi, hkey, if_true, hsome]

/-- C8 witness: instantiating both conjuncts. -/
theorem C8_witness :
    _handle_callback_matching (.zipInfo "m" 1 2) "zip" (.raw "text/plain")
        [⟨"first", fun _ => some 7⟩, ⟨"second", fun _ => some 9⟩] [] [] false =
      .ok (true, [("first", .cbRec [⟨.raw "text/plain", "m", 1, 2⟩] 7)], [])
  ∧ _handle_callback_matching (.zipInfo "m" 1 2) "zip" (.raw "text/plain")
        [⟨"first", fun _ => some 7⟩]
        [("first", .cbRec [⟨.raw "other", "n", 3, 4⟩] 5)] [] false =
      .ok (true, [("first", .cbRec [⟨.raw "other", "n", 3, 4⟩,
            ⟨.raw "text/plain", "m", 1, 2⟩] 7)], []) :=
  ⟨C8_theorem.1 (.zipInfo "m" 1 2) "zip" (.raw "text/plain") []
      ⟨"first", fun _ => some 7⟩ [⟨"second", fun _ => some 9⟩] [] [] false 7
      ⟨.raw "text/plain", "m", 1, 2⟩ (by simp) rfl rfl (by decide),
   C8_theorem.2 (.zipInfo "m" 1 2) "zip" (.raw "text/plain") []
      ⟨"first", fun _ => some 7⟩ [] [("first", .cbRec [⟨.raw "other", "n", 3, 4⟩] 5)] []
      false 7 ⟨.raw "text/plain", "m", 1, 2⟩ [⟨.raw "other", "n", 3, 4⟩] 5
      (by simp) rfl rfl (by rfl)⟩

/-- C9: `_match_file_name` is exactly a (case-sensitive or case-folded)
suffix test on the member name — not full-path equality: `dir/sub/report.txt`
matches target `report.txt` in both modes, `REPORT.TXT` matches it only
case-insensitively, and the matching member name is not equal to the
target. -/
theorem C9_theorem :
    (∀ target current : String,
      _match_file_name target current true = true ↔ target.data <:+ current.data)
  ∧ (∀ target current : String,
      _match_file_name target current false = true ↔
        (pyLower target).data <:+ (pyLower current).data)
  ∧ _match_file_name "report.txt" "dir/sub/report.txt" true = true
  ∧ _match_file_name "report.txt" "dir/sub/report.txt" false = true
  ∧ _match_file_name "report.txt" "REPORT.TXT" false = true
  ∧ _match_file_name "report.txt" "REPORT.TXT" true = false
  ∧ (("dir/sub/report.txt" : String) == "report.txt") = false := by
  refine ⟨?_, ?_, by rfl, by rfl, by rfl, by rfl, by rfl⟩
  · intro target current
    simp [_match_file_name, pyEndsWith]
  · intro target current
    simp [_match_file_name, pyEndsWith]

/-- C10 counterexample: with `file_names_to_search = []`, one always-truthy
predicate and `return_first_only = true`, the first member's callback match
puts its filename into the found set, so `len(found_set) == 0` never holds
again: the second member is read and matched as well, and the whole
container is traversed. -/
theorem C10_counterexample :
    search_file_in_archive 2
        (.zipArc "application/zip"
          [ .mk "f1" 1 1 (.raw "text/plain"), .mk "f2" 2 2 (.raw "text/plain") ])
        (some []) true true false false (some [⟨"cb", fun _ => some 1⟩]) =
      .ok [("cb", .cbRec [⟨.raw "text/plain", "f1", 1, 1⟩, ⟨.raw "text/plain", "f2", 2, 2⟩] 1)] := by
  rfl

/-- C10 (amended): with `file_names_to_search = []` and
`return_first_only = false` (so that the found set stays empty), the
traversal of any container breaks right after processing its first
non-directory member — whatever members follow it are never visited.  Stated
for zip and 7z member loops, with the recursion into nested containers
instantiated to the real `_search_archive_content`. -/
theorem C10_theorem :
    (∀ (fuel : Nat) (cs rec' : Bool) (cbs : Option (List Callback)) (e : ZipEntry)
       (rest : List ZipEntry) (r r' : Results) (f' : FoundSet),
      pyEndsWith e.filename "/" = false →
      process_zip_entry
          (fun b' r1 f1 => _search_archive_content fuel b' (some []) cs false rec' cbs r1 f1)
          (some []) cs false rec' cbs e r [] = .ok (r', f') →
      zip_search_loop
          (fun b' r1 f1 => _search_archive_content fuel b' (some []) cs false rec' cbs r1 f1)
          (some []) cs false rec' cbs (e :: rest) r [] = .ok (r', f'))
  ∧ (∀ (fuel : Nat) (cs rec' : Bool) (cbs : Option (List Callback)) (e : SvnEntry)
       (rest : List SvnEntry) (r r' : Results) (f' : FoundSet),
      e.is_directory = false →
      process_svn_entry
          (fun b' r1 f1 => _search_archive_content fuel b' (some []) cs false rec' cbs r1 f1)
          (some []) cs false rec' cbs e r [] = .ok (r', f') →
      svn_search_loop
          (fun b' r1 f1 => _search_archive_content fuel b' (some []) cs false rec' cbs r1 f1)
          (some []) cs false rec' cbs (e :: rest) r [] = .ok (r', f')) := by
  constructor
  · intro fuel cs rec' cbs e rest r r' f' hdir hproc
    have hf : f' = [] := pze_found_preserved _
      (fun b1 r1 f1 r2 f2 hh => sac_found_preserved fuel b1 (some []) cs rec' cbs r1 f1 r2 f2 hh)
      (some []) cs rec' cbs e r [] r' f' hproc
    have hbreak : break_condition (some []) f' = true := by
      subst hf; rfl
    unfold zip_search_loop
    rw [hdir]
    simp only [Bool.false_eq_true, if_false, hproc, hbreak, if_true]
  · intro fuel cs rec' cbs e rest r r' f' hdir hproc
    have hf : f' = [] := pse_found_preserved _
      (fun b1 r1 f1 r2 f2 hh => sac_found_preserved fuel b1 (some []) cs rec' cbs r1 f1 r2 f2 hh)
      (some []) cs rec' cbs e r [] r' f' hproc
    have hbreak : break_condition (some []) f' = true := by
      subst hf; rfl
    unfold svn_search_loop
    rw [hdir]
    simp only [Bool.false_eq_true, if_false, hproc, hbreak, if_true]

/-- C10 witness: instantiating the amended claim's zip conjunct. -/
theorem C10_witness :
    zip_search_loop
        (fun b' r1 f1 => _search_archive_content 1 b' (some []) true false false
          (some [⟨"cb", fun _ => some 1⟩]) r1 f1)
        (some []) true false false (some [⟨"cb", fun _ => some 1⟩])
        [.mk "f1" 1 1 (.raw "text/plain"), .mk "f2" 2 2 (.raw "text/plain")] [] [] =
      .ok ([("cb", .cbRec [⟨.raw "text/plain", "f1", 1, 1⟩] 1)], []) :=
  C10_theorem.1 1 true false (some [⟨"cb", fun _ => some 1⟩])
    (.mk "f1" 1 1 (.raw "text/plain")) [.mk "f2" 2 2 (.raw "text/plain")] []
    [("cb", .cbRec [⟨.raw "text/plain", "f1", 1, 1⟩] 1)] []
    (by decide) (by rfl)

end DkArchiver
